import Mathlib

/-!
# CounterBridge — verification of the consumer core

Shallow embedding of the CounterBridge consumer engine
(`packages/core/src/aggregator.ts`, the `CounterBridge` class shipped in
`packages/core`, and `packages/provider-mongo/src/provider.ts`) together
with theorems settling the specification claims.

Modelling conventions:
* A JavaScript `Map<string, number>` is modelled as an insertion-ordered
  association list `List (String × Int)` with `getKey` / `setKey`
  mirroring `Map.get` / `Map.set`.
* Counter deltas handled by the aggregator and the flush path are signed
  integers (`Int`), following the data model (`delta`: signed integer).
* JavaScript `Number(...)` conversion of raw stream strings is modelled
  by `jsNumber : String → JsNum`, where `JsNum` distinguishes NaN and the
  infinities from finite rationals.
* The single suspension points of the consumer (provider flush, xack,
  xreadgroup, xgroup, provider initialize) are modelled by passing their
  outcomes as explicit parameters; the control flow between suspensions
  is sequential, as in the single-threaded JS runtime.
-/

/-- A validated counter mutation (`CounterEvent` in `@counter-bridge/types`):
`scope` is the opaque counter key, `delta` the signed integer mutation,
`timestamp` epoch milliseconds (informational). -/
structure CounterEvent where
  scope : String
  delta : Int
  timestamp : Int
deriving DecidableEq, Repr

/-- `Map.get` on an insertion-ordered association list. -/
def getKey : List (String × Int) → String → Option Int
  | [], _ => none
  | (k, v) :: rest, s => if k = s then some v else getKey rest s

/-- `Map.set` on an insertion-ordered association list: overwrite the
existing entry in place, or append a new entry at the end. -/
def setKey : List (String × Int) → String → Int → List (String × Int)
  | [], k, v => [(k, v)]
  | (k', v') :: rest, k, v =>
    if k' = k then (k, v) :: rest else (k', v') :: setKey rest k v

/-- The in-memory aggregator (`Aggregator` in
`packages/core/src/aggregator.ts`): a map from scope to net delta plus
the count of folded events. -/
structure Aggregator where
  deltas : List (String × Int)
  count : Nat
deriving DecidableEq, Repr

/-- A freshly constructed `Aggregator` (`new Aggregator()`). -/
def emptyAggregator : Aggregator := ⟨[], 0⟩

/-- `Aggregator.add(event)`: add `event.delta` to the current net delta
for `event.scope` (`this.deltas.get(event.scope) ?? 0` plus the delta),
and increment the event count. -/
def Aggregator.add (a : Aggregator) (e : CounterEvent) : Aggregator :=
  let current := (getKey a.deltas e.scope).getD 0
  ⟨setKey a.deltas e.scope (current + e.delta), a.count + 1⟩

/-- `Aggregator.size`: number of events folded since the last drain. -/
def Aggregator.size (a : Aggregator) : Nat := a.count

/-- `Aggregator.scopeCount`: number of distinct scopes present. -/
def Aggregator.scopeCount (a : Aggregator) : Nat := a.deltas.length

/-- `Aggregator.drain()`: return the folded deltas and reset the state. -/
def Aggregator.drain (a : Aggregator) : List (String × Int) × Aggregator :=
  (a.deltas, emptyAggregator)

/-- Add a whole sequence of events to an aggregator, in order. -/
def addAll (a : Aggregator) (es : List CounterEvent) : Aggregator :=
  es.foldl Aggregator.add a

/-- The batch produced by draining a fresh aggregator after adding `es`. -/
def drainOf (es : List CounterEvent) : List (String × Int) :=
  (addAll emptyAggregator es).drain.1

/-- Whether some event in `es` has scope `s`. -/
def hasScope (es : List CounterEvent) (s : String) : Bool :=
  es.any (fun e => e.scope == s)

/-- Arithmetic sum of the deltas of the events in `es` with scope `s`. -/
def sumFor (es : List CounterEvent) (s : String) : Int :=
  ((es.filter (fun e => e.scope == s)).map CounterEvent.delta).sum

theorem getKey_setKey (l : List (String × Int)) (k s : String) (v : Int) :
    getKey (setKey l k v) s = if k = s then some v else getKey l s := by
  induction l with
  | nil => simp [setKey, getKey]
  | cons hd tl ih =>
    obtain ⟨k', v'⟩ := hd
    by_cases hk : k' = k
    · subst hk
      by_cases hs : k' = s <;> simp [setKey, getKey, hs]
    · by_cases hs : k' = s
      · subst hs
        have : ¬ k = k' := fun h => hk h.symm
        simp [setKey, getKey, hk, this]
      · simp [setKey, getKey, hk, hs, ih]

theorem sumFor_eq_zero {es : List CounterEvent} {s : String}
    (h : hasScope es s = false) : sumFor es s = 0 := by
  unfold sumFor
  have : es.filter (fun e => e.scope == s) = [] := by
    rw [List.filter_eq_nil_iff]
    intro e he
    have := List.any_eq_false.mp h e he
    simpa using this
  simp [this]

theorem getKey_addAll (a : Aggregator) (es : List CounterEvent) (s : String) :
    getKey (addAll a es).deltas s =
      if hasScope es s then some ((getKey a.deltas s).getD 0 + sumFor es s)
      else getKey a.deltas s := by
  induction es generalizing a with
  | nil => simp [addAll, hasScope, sumFor]
  | cons e es ih =>
    have hstep : addAll a (e :: es) = addAll (a.add e) es := rfl
    rw [hstep, ih]
    by_cases he : e.scope = s
    · have hget : getKey (a.add e).deltas s =
          some ((getKey a.deltas s).getD 0 + e.delta) := by
        simp [Aggregator.add, getKey_setKey, he]
      have hhas : hasScope (e :: es) s = true := by
        simp [hasScope, he]
      have hsum : sumFor (e :: es) s = e.delta + sumFor es s := by
        simp [sumFor, List.filter_cons, he]
      by_cases hes : hasScope es s
      · simp only [hes, if_true, hget, hhas, if_true, hsum, Option.getD_some]
        congr 1
        ring
      · have hes' : hasScope es s = false := by simpa using hes
        simp only [hes', Bool.false_eq_true, if_false, hget, hhas, if_true,
          hsum, sumFor_eq_zero hes']
        congr 1
        ring
    · have hget : getKey (a.add e).deltas s = getKey a.deltas s := by
        simp [Aggregator.add, getKey_setKey, he]
      have hhas : hasScope (e :: es) s = hasScope es s := by
        simp [hasScope, he]
      have hsum : sumFor (e :: es) s = sumFor es s := by
        simp [sumFor, List.filter_cons, he]
      rw [hget, hhas, hsum]

theorem hasScope_perm {es es' : List CounterEvent} (h : es.Perm es')
    (s : String) : hasScope es s = hasScope es' s := by
  unfold hasScope
  cases hx : es'.any (fun e => e.scope == s) with
  | true =>
    obtain ⟨e, he, hp⟩ := List.any_eq_true.mp hx
    exact List.any_eq_true.mpr ⟨e, h.mem_iff.mpr he, hp⟩
  | false =>
    rw [List.any_eq_false]
    intro e he
    exact List.any_eq_false.mp hx e (h.mem_iff.mp he)

theorem sumFor_perm {es es' : List CounterEvent} (h : es.Perm es')
    (s : String) : sumFor es s = sumFor es' s := by
  unfold sumFor
  exact List.Perm.sum_eq (List.Perm.map _ (h.filter _))

/-- **C1.** Folding correctness of the Aggregator: for any finite
sequence of events added to a fresh Aggregator, `drain()` maps each
scope that occurs in the input to the arithmetic sum of the deltas of
the events with that scope, scopes that occur in no event are absent,
and the result is invariant under reordering of the added events. -/
theorem aggregator_fold (es es' : List CounterEvent) (h : es.Perm es')
    (s : String) :
    getKey (drainOf es) s =
      (if hasScope es s then some (sumFor es s) else none) ∧
    getKey (drainOf es') s = getKey (drainOf es) s := by
  have main : ∀ l : List CounterEvent, getKey (drainOf l) s =
      (if hasScope l s then some (sumFor l s) else none) := by
    intro l
    have := getKey_addAll emptyAggregator l s
    simpa [drainOf, Aggregator.drain, emptyAggregator, getKey] using this
  refine ⟨main es, ?_⟩
  rw [main es, main es', hasScope_perm h s, sumFor_perm h s]

/-- Concrete instance of `aggregator_fold`: the events
`(likes,+1), (likes,+1), (likes,-1)` drain to `likes ↦ 1`. -/
theorem aggregator_fold_witness :
    getKey (drainOf [⟨"likes", 1, 0⟩, ⟨"likes", 1, 1⟩, ⟨"likes", -1, 2⟩])
      "likes" = some 1 :=
  (aggregator_fold
      [⟨"likes", 1, 0⟩, ⟨"likes", 1, 1⟩, ⟨"likes", -1, 2⟩]
      [⟨"likes", 1, 0⟩, ⟨"likes", 1, 1⟩, ⟨"likes", -1, 2⟩]
      (List.Perm.refl _) "likes").1.trans (by decide)

/-!
## Flush coordinator (`CounterBridge.doFlush`)

The flush path of the consumer: drain the aggregator, snapshot and clear
the pending-id list (`this.pendingIds.splice(0)`), call
`provider.flush(batch)`, then either acknowledge and update stats, or on
a thrown error re-add the whole batch and restore the ids.
-/

/-- Observability events and warnings emitted by the consumer. The
payloads mirror the objects passed to `this.emit(...)` in the source. -/
inductive Emitted where
  /-- `warn` with message `"Dropped malformed event"` and the raw fields. -/
  | warnMalformed (fields : List String)
  /-- `warn` with message `"Failed to parse event metadata"` and the scope. -/
  | warnMetadata (scope : String)
  /-- `warn` with message `"Partial flush failure"`, carrying
  `failedScopes` (size of the failed map) and `totalScopes` (batch size). -/
  | warnFailedScopes (failedScopes totalScopes : Nat)
  /-- an `error` event. -/
  | errorEv
  /-- a `flush` event with `scopeCount` and `flushNumber`. -/
  | flushEv (scopeCount flushNumber : Nat)
  /-- a `recovery` event with `messageCount`. -/
  | recoveryEv (messageCount : Nat)
deriving DecidableEq, Repr

/-- The `SyncStats` record of the consumer. `lastFlushAt` holds the
epoch instant of the most recent completed flush. -/
structure SyncStats where
  eventsProcessed : Nat
  flushCount : Nat
  lastFlushAt : Option Int
  pendingMessages : Nat
  avgBatchSize : Nat
  errorCount : Nat
deriving DecidableEq, Repr

/-- Initial stats (all zero, no last flush). -/
def initStats : SyncStats := ⟨0, 0, none, 0, 0, 0⟩

/-- Mutable consumer state touched by the flush path, plus two histories
for observability: `emitted` (events emitted, in order) and `acked`
(the argument lists of the `xack` calls, in order). -/
structure BridgeState where
  agg : Aggregator
  pendingIds : List String
  stats : SyncStats
  emitted : List Emitted
  acked : List (List String)
deriving DecidableEq, Repr

/-- Outcome of the awaited `provider.flush(batch)` call:
`ok none` models a void / success return, `ok (some failed)` models a
returned `FlushResult` with a `failed` map (listed as scope/delta
pairs), and `err` models a thrown error. -/
inductive ProviderResult where
  | ok (failed : Option (List (String × Int)))
  | err
deriving DecidableEq, Repr

/-- Outcome of the awaited `xack` call. -/
inductive AckResult where
  | ok
  | err
deriving DecidableEq, Repr

/-- `Math.round(a / n)` for natural `a`, `n` (`n > 0`): JavaScript
rounds half away from zero, i.e. `⌊a/n + 1/2⌋ = (2a + n) / (2n)`. -/
def roundDiv (a n : Nat) : Nat := (2 * a + n) / (2 * n)

/-- Re-add a drained scope/delta list into the aggregator as synthetic
events with the fresh timestamp `now` (`this.aggregator.add({scope,
delta, timestamp: Date.now()})`). -/
def readdAll (a : Aggregator) (l : List (String × Int)) (now : Int) :
    Aggregator :=
  l.foldl (fun acc p => acc.add ⟨p.1, p.2, now⟩) a

/-- The `catch` branch of `doFlush`: increment the error counter, emit
an `error` event, re-add the whole batch, and prepend (`unshift`) the
snapshotted ids back onto the pending-id list. -/
def totalFailure (st : BridgeState) (batch : List (String × Int))
    (idsToAck : List String) (now : Int) : BridgeState :=
  { st with
    stats := { st.stats with errorCount := st.stats.errorCount + 1 },
    emitted := st.emitted ++ [.errorEv],
    agg := readdAll st.agg batch now,
    pendingIds := idsToAck ++ st.pendingIds }

/-- The stats/emit tail of the `try` branch of `doFlush`:
`flushCount++`, `lastFlushAt = now`, cumulative-mean `avgBatchSize`
update, and the `flush` event. -/
def successStats (st : BridgeState) (batchSize : Nat) (now : Int) :
    BridgeState :=
  let n := st.stats.flushCount + 1
  { st with
    stats := { st.stats with
      flushCount := n,
      lastFlushAt := some now,
      avgBatchSize := roundDiv (st.stats.avgBatchSize * (n - 1) + batchSize) n },
    emitted := st.emitted ++ [.flushEv batchSize n] }

/-- `CounterBridge.doFlush`, with the outcomes of the two suspension
points (`provider.flush` and `xack`) passed in as `pres` and `ares` and
`Date.now()` as `now`. Field order follows the source: drain, snapshot
and clear `pendingIds`, provider call; on a returned `failed` map
re-add the failed scopes and emit the partial-failure warning; ack when
there are ids (a thrown `xack` lands in the same `catch` as a provider
error); update stats and emit `flush`; on a throw run the `catch`
branch. -/
def doFlush (st : BridgeState) (pres : ProviderResult) (ares : AckResult)
    (now : Int) : BridgeState :=
  let batch := st.agg.deltas
  let batchSize := batch.length
  let idsToAck := st.pendingIds
  let st0 : BridgeState := { st with agg := emptyAggregator, pendingIds := [] }
  match pres with
  | .err => totalFailure st0 batch idsToAck now
  | .ok failed? =>
    let st1 := match failed? with
      | some failed =>
        if 0 < failed.length then
          { st0 with
            agg := readdAll st0.agg failed now,
            emitted := st0.emitted ++ [.warnFailedScopes failed.length batchSize] }
        else st0
      | none => st0
    if idsToAck.isEmpty then successStats st1 batchSize now
    else
      match ares with
      | .ok => successStats
          { st1 with acked := st1.acked ++ [idsToAck] } batchSize now
      | .err => totalFailure st1 batch idsToAck now

theorem filter_fst_eq_single {l : List (String × Int)} {p : String × Int}
    (hmem : p ∈ l) (hnd : (l.map Prod.fst).Nodup) :
    l.filter (fun q => q.1 == p.1) = [p] := by
  induction l with
  | nil => cases hmem
  | cons q rest ih =>
    rw [List.map_cons, List.nodup_cons] at hnd
    rcases List.mem_cons.mp hmem with hq | hrest
    · subst hq
      have hfil : rest.filter (fun q' => q'.1 == p.1) = [] := by
        rw [List.filter_eq_nil_iff]
        intro q' hq' hbeq
        have heq : q'.1 = p.1 := by simpa using hbeq
        exact hnd.1 (List.mem_map.mpr ⟨q', hq', heq⟩)
      simp [List.filter_cons, hfil]
    · have hne : (q.1 == p.1) = false := by
        by_contra hcon
        have heq : q.1 = p.1 := by
          simpa using (Bool.not_eq_false _).mp hcon
        exact hnd.1 (heq ▸ List.mem_map.mpr ⟨p, hrest, rfl⟩)
      simp only [List.filter_cons, hne, Bool.false_eq_true, if_false]
      exact ih hrest hnd.2

/-- Re-adding a nodup-keyed scope/delta list into a fresh aggregator
makes every pair retrievable with its original delta. -/
theorem getKey_readdAll {l : List (String × Int)} {p : String × Int}
    (hmem : p ∈ l) (hnd : (l.map Prod.fst).Nodup) (now : Int) :
    getKey (readdAll emptyAggregator l now).deltas p.1 = some p.2 := by
  have hre : readdAll emptyAggregator l now =
      addAll emptyAggregator (l.map (fun q => ⟨q.1, q.2, now⟩)) := by
    unfold readdAll addAll
    rw [List.foldl_map]
  rw [hre, getKey_addAll]
  have hhas : hasScope (l.map (fun q => (⟨q.1, q.2, now⟩ : CounterEvent))) p.1
      = true := by
    unfold hasScope
    rw [List.any_eq_true]
    refine ⟨⟨p.1, p.2, now⟩, List.mem_map.mpr ⟨p, hmem, rfl⟩, ?_⟩
    simp
  have hsum : sumFor (l.map (fun q => (⟨q.1, q.2, now⟩ : CounterEvent))) p.1
      = p.2 := by
    unfold sumFor
    rw [List.filter_map]
    have : (fun e : CounterEvent => e.scope == p.1) ∘
        (fun q : String × Int => (⟨q.1, q.2, now⟩ : CounterEvent)) =
        fun q : String × Int => q.1 == p.1 := rfl
    rw [this, filter_fst_eq_single hmem hnd]
    simp
  rw [hhas, hsum]
  simp [emptyAggregator, getKey]

/-- `roundDiv` is JavaScript `Math.round` applied to the quotient: the
floor of `a/n + 1/2` (for nonnegative operands, as in the stats path). -/
theorem roundDiv_eq_floor (a n : Nat) (hn : 0 < n) :
    roundDiv a n = ⌊(a : ℚ) / (n : ℚ) + 1 / 2⌋₊ := by
  have hn' : (n : ℚ) ≠ 0 := Nat.cast_ne_zero.mpr hn.ne'
  have heq : (a : ℚ) / (n : ℚ) + 1 / 2 =
      ((2 * a + n : ℕ) : ℚ) / ((2 * n : ℕ) : ℚ) := by
    push_cast
    field_simp
    ring
  rw [roundDiv, heq, Nat.floor_div_eq_div]

/-- **C2.** Total flush failure (`provider.flush` throws): every
scope/delta pair of the drained batch is back in the (previously
drained, hence fresh) Aggregator, the snapshotted ids are prepended
back onto the pending-id list (so the list is exactly the snapshot
again), nothing is acknowledged, the error counter is incremented, and
an `error` event is emitted. -/
theorem doFlush_totalFailure (st : BridgeState) (a : AckResult) (now : Int)
    (hnd : (st.agg.deltas.map Prod.fst).Nodup) :
    (∀ p ∈ st.agg.deltas,
      getKey (doFlush st .err a now).agg.deltas p.1 = some p.2) ∧
    (doFlush st .err a now).pendingIds = st.pendingIds ∧
    (doFlush st .err a now).acked = st.acked ∧
    (doFlush st .err a now).stats.errorCount = st.stats.errorCount + 1 ∧
    (doFlush st .err a now).emitted = st.emitted ++ [.errorEv] := by
  refine ⟨?_, ?_, ?_, ?_, ?_⟩
  · intro p hp
    simpa [doFlush, totalFailure] using getKey_readdAll hp hnd now
  · simp [doFlush, totalFailure]
  · simp [doFlush, totalFailure]
  · simp [doFlush, totalFailure]
  · simp [doFlush, totalFailure]

/-- Concrete instance of `doFlush_totalFailure`: batch
`{a ↦ 2, b ↦ 3}` with ids `1-0, 2-0` and a throwing provider. -/
theorem doFlush_totalFailure_witness :
    getKey (doFlush ⟨⟨[("a", 2), ("b", 3)], 5⟩, ["1-0", "2-0"], initStats,
        [], []⟩ .err .ok 9).agg.deltas "a" = some 2 ∧
    (doFlush ⟨⟨[("a", 2), ("b", 3)], 5⟩, ["1-0", "2-0"], initStats,
        [], []⟩ .err .ok 9).pendingIds = ["1-0", "2-0"] ∧
    (doFlush ⟨⟨[("a", 2), ("b", 3)], 5⟩, ["1-0", "2-0"], initStats,
        [], []⟩ .err .ok 9).acked = [] := by
  have h := doFlush_totalFailure
    ⟨⟨[("a", 2), ("b", 3)], 5⟩, ["1-0", "2-0"], initStats, [], []⟩
    .ok 9 (by decide)
  exact ⟨h.1 ("a", 2) (by decide), h.2.1, h.2.2.1⟩

/-- **C3.** Partial flush failure (`FlushResult.failed` non-empty and
strictly smaller than the batch): the snapshotted ids are acknowledged
in exactly one `xack` call, each failed scope/delta pair is back in the
Aggregator with its original delta (re-added as a synthetic event with
the fresh timestamp `now`), the `"Partial flush failure"` warning is
emitted with `failedScopes` and `totalScopes`, and stats are updated as
on success (`flushCount` incremented, `flush` event emitted). -/
theorem doFlush_failedSubset (st : BridgeState)
    (failed : List (String × Int)) (now : Int)
    (hne : failed ≠ [])
    (hlt : failed.length < st.agg.deltas.length)
    (hnd : (failed.map Prod.fst).Nodup)
    (hids : st.pendingIds ≠ []) :
    (doFlush st (.ok (some failed)) .ok now).acked =
      st.acked ++ [st.pendingIds] ∧
    (∀ p ∈ failed,
      getKey (doFlush st (.ok (some failed)) .ok now).agg.deltas p.1 =
        some p.2) ∧
    (doFlush st (.ok (some failed)) .ok now).emitted = st.emitted ++
      [.warnFailedScopes failed.length st.agg.deltas.length,
       .flushEv st.agg.deltas.length (st.stats.flushCount + 1)] ∧
    (doFlush st (.ok (some failed)) .ok now).stats.flushCount =
      st.stats.flushCount + 1 := by
  have hlen : 0 < failed.length := List.length_pos.mpr hne
  have hempty : st.pendingIds.isEmpty = false := by
    cases h : st.pendingIds with
    | nil => exact absurd h hids
    | cons x xs => rfl
  refine ⟨?_, ?_, ?_, ?_⟩
  · simp [doFlush, successStats, hlen, hempty]
  · intro p hp
    simpa [doFlush, successStats, hlen, hempty] using
      getKey_readdAll hp hnd now
  · simp [doFlush, successStats, hlen, hempty]
  · simp [doFlush, successStats, hlen, hempty]

/-- Concrete instance of `doFlush_failedSubset`: batch `{a ↦ 1, b ↦ 2}`,
provider reports `failed = {b ↦ 2}`. -/
theorem doFlush_failedSubset_witness :
    (doFlush ⟨⟨[("a", 1), ("b", 2)], 2⟩, ["4-0", "5-0"], initStats,
        [], []⟩ (.ok (some [("b", 2)])) .ok 7).acked = [["4-0", "5-0"]] ∧
    getKey (doFlush ⟨⟨[("a", 1), ("b", 2)], 2⟩, ["4-0", "5-0"], initStats,
        [], []⟩ (.ok (some [("b", 2)])) .ok 7).agg.deltas "b" = some 2 := by
  have h := doFlush_failedSubset
    ⟨⟨[("a", 1), ("b", 2)], 2⟩, ["4-0", "5-0"], initStats, [], []⟩
    [("b", 2)] 7 (by decide) (by decide) (by decide) (by decide)
  exact ⟨by simpa using h.1, h.2.1 ("b", 2) (by decide)⟩

/-- **C4.** What `doFlush` actually does when the provider reports the
whole batch as failed via a `FlushResult`: contrary to the specified
behaviour, it still acknowledges the snapshotted ids (`xack` is called
with them, the pending-id list stays cleared) and still emits the
`"Partial flush failure"` warning, exactly as in the
strictly-smaller-failed-set case. -/
theorem doFlush_allFailed_behavior :
    (doFlush ⟨⟨[("a", 1)], 1⟩, ["1-0"], initStats, [], []⟩
        (.ok (some [("a", 1)])) .ok 5).acked = [["1-0"]] ∧
    (doFlush ⟨⟨[("a", 1)], 1⟩, ["1-0"], initStats, [], []⟩
        (.ok (some [("a", 1)])) .ok 5).emitted =
      [.warnFailedScopes 1 1, .flushEv 1 1] ∧
    (doFlush ⟨⟨[("a", 1)], 1⟩, ["1-0"], initStats, [], []⟩
        (.ok (some [("a", 1)])) .ok 5).pendingIds = [] ∧
    (doFlush ⟨⟨[("a", 1)], 1⟩, ["1-0"], initStats, [], []⟩
        (.ok (some [("a", 1)])) .ok 5).stats.flushCount = 1 := by
  decide

/-- **C9.** After every completed flush — provider returned normally,
whether fully successful or with a failed subset — `avgBatchSize`
becomes `round((old * (flushCount - 1) + batch.size) / flushCount)`
with `flushCount` already incremented, i.e. the cumulative mean of
batch scope-counts over completed flushes; a total failure updates
neither `avgBatchSize` nor `flushCount`. -/
theorem doFlush_avgBatch (st : BridgeState)
    (f : Option (List (String × Int))) (now : Int) :
    ((doFlush st (.ok f) .ok now).stats.flushCount =
        st.stats.flushCount + 1 ∧
     (doFlush st (.ok f) .ok now).stats.avgBatchSize =
        roundDiv (st.stats.avgBatchSize * st.stats.flushCount +
          st.agg.deltas.length) (st.stats.flushCount + 1)) ∧
    (doFlush st .err .ok now).stats.avgBatchSize =
      st.stats.avgBatchSize ∧
    (doFlush st .err .ok now).stats.flushCount = st.stats.flushCount := by
  refine ⟨⟨?_, ?_⟩, ?_, ?_⟩
  · cases f with
    | none =>
      by_cases h : st.pendingIds.isEmpty <;>
        simp [doFlush, successStats, h]
    | some failed =>
      by_cases hl : 0 < failed.length <;>
        by_cases h : st.pendingIds.isEmpty <;>
          simp [doFlush, successStats, hl, h]
  · cases f with
    | none =>
      by_cases h : st.pendingIds.isEmpty <;>
        simp [doFlush, successStats, h]
    | some failed =>
      by_cases hl : 0 < failed.length <;>
        by_cases h : st.pendingIds.isEmpty <;>
          simp [doFlush, successStats, hl, h]
  · simp [doFlush, totalFailure]
  · simp [doFlush, totalFailure]

/-!
## Event parser (`CounterBridge.parseEvent`)

The parser takes the flat field array of a stream entry, scans it two
slots at a time into the recognized registers, rejects entries with a
falsy `scope` or an absent `delta`, and converts `delta` and
`timestamp` with JavaScript `Number(...)` semantics.
-/

/-- A JavaScript number as produced by `Number(...)` on a string field:
NaN, one of the infinities, or a finite rational. -/
inductive JsNum where
  | nan
  | inf
  | negInf
  | num (val : ℚ)
deriving DecidableEq, Repr

/-- Whitespace for the purposes of `Number(string)` trimming (tab,
newline, vertical tab, form feed, carriage return, space, no-break
space, byte order mark). -/
def isJsWs (c : Char) : Bool :=
  [9, 10, 11, 12, 13, 32, 160, 65279].contains c.toNat

/-- Value of a decimal digit string (most significant first). -/
def decVal (ds : List Char) : Nat :=
  ds.foldl (fun acc c => acc * 10 + (c.toNat - 48)) 0

/-- Value of a hexadecimal digit, if any. -/
def hexVal? (c : Char) : Option Nat :=
  if c.isDigit then some (c.toNat - 48)
  else if 'a' ≤ c ∧ c ≤ 'f' then some (c.toNat - 87)
  else if 'A' ≤ c ∧ c ≤ 'F' then some (c.toNat - 55)
  else none

/-- Value of a non-empty digit string in the given radix; `none` when
empty or when any character is not a digit of the radix. -/
def digitsVal (ds : List Char) (radix : Nat) (dv : Char → Option Nat) :
    Option Nat :=
  if ds.isEmpty then none
  else ds.foldl (fun acc c =>
    match acc, dv c with
    | some a, some d => some (a * radix + d)
    | _, _ => none) (some 0)

/-- Parse the optional exponent tail of a decimal literal: empty input
means exponent 0; otherwise `e`/`E`, an optional sign, and at least one
digit, consuming the whole input. -/
def parseExp (cs : List Char) : Option Int :=
  match cs with
  | [] => some 0
  | c :: rest =>
    if c = 'e' ∨ c = 'E' then
      let (sgn, rest2) : Int × List Char :=
        match rest with
        | '+' :: r => (1, r)
        | '-' :: r => (-1, r)
        | r => (1, r)
      let ds := rest2.takeWhile Char.isDigit
      let rest3 := rest2.dropWhile Char.isDigit
      if ds.isEmpty ∨ ¬ rest3.isEmpty then none
      else some (sgn * (decVal ds : Int))
    else none

/-- The rational `(intDs.fracDs) × 10^e`, built as a single normalized
fraction of natural powers of ten. -/
def decimalVal (intDs fracDs : List Char) (e : Int) : ℚ :=
  let n := decVal intDs * 10 ^ fracDs.length + decVal fracDs
  let d := 10 ^ fracDs.length
  match e with
  | .ofNat k => mkRat (n * 10 ^ k) d
  | .negSucc k => mkRat n (d * 10 ^ (k + 1))

/-- Parse an unsigned decimal literal (`digits`, `digits.digits?`,
`.digits`, each with an optional exponent), consuming the whole input. -/
def parseDecBody (cs : List Char) : Option ℚ :=
  let intDs := cs.takeWhile Char.isDigit
  let rest1 := cs.dropWhile Char.isDigit
  match rest1 with
  | '.' :: rest2 =>
    let fracDs := rest2.takeWhile Char.isDigit
    let rest3 := rest2.dropWhile Char.isDigit
    if intDs.isEmpty ∧ fracDs.isEmpty then none
    else (parseExp rest3).map (decimalVal intDs fracDs)
  | _ =>
    if intDs.isEmpty then none
    else (parseExp rest1).map (decimalVal intDs [])

/-- Model of ECMAScript `Number(...)` applied to a string: trim
JS whitespace; empty means `0`; signed `Infinity`; `0x`/`0o`/`0b`
radix literals (unsigned); otherwise a signed decimal literal; anything
else is NaN. -/
def jsNumber (s : String) : JsNum :=
  let cs := ((s.toList.dropWhile isJsWs).reverse.dropWhile isJsWs).reverse
  if cs.isEmpty then .num 0
  else
    match cs with
    | '+' :: rest =>
      if rest = "Infinity".toList then .inf
      else
        match parseDecBody rest with
        | some q => .num q
        | none => .nan
    | '-' :: rest =>
      if rest = "Infinity".toList then .negInf
      else
        match parseDecBody rest with
        | some q => .num (-q)
        | none => .nan
    | '0' :: c :: rest =>
      if c = 'x' ∨ c = 'X' then
        match digitsVal rest 16 hexVal? with
        | some n => .num n
        | none => .nan
      else if c = 'o' ∨ c = 'O' then
        match digitsVal rest 8
            (fun d => (hexVal? d).filter (fun v => decide (v < 8))) with
        | some n => .num n
        | none => .nan
      else if c = 'b' ∨ c = 'B' then
        match digitsVal rest 2
            (fun d => (hexVal? d).filter (fun v => decide (v < 2))) with
        | some n => .num n
        | none => .nan
      else
        match parseDecBody cs with
        | some q => .num q
        | none => .nan
    | _ =>
      if cs = "Infinity".toList then .inf
      else
        match parseDecBody cs with
        | some q => .num q
        | none => .nan

/-- The four registers of the parser's linear scan (`scope`, `delta`,
`timestamp`, `metadata`); `none` is JavaScript `undefined`. -/
structure ScanState where
  scopeF : Option String
  deltaF : Option String
  tsF : Option String
  metaF : Option String
deriving DecidableEq, Repr

/-- All registers start out `undefined`. -/
def initScan : ScanState := ⟨none, none, none, none⟩

/-- One `switch` step of the scan: store the value slot (which is
`undefined` when the key sits at the end of an odd-length array) into
the register named by the key; unknown keys are ignored. -/
def assignField (st : ScanState) (k : String) (v : Option String) :
    ScanState :=
  if k = "scope" then { st with scopeF := v }
  else if k = "delta" then { st with deltaF := v }
  else if k = "timestamp" then { st with tsF := v }
  else if k = "metadata" then { st with metaF := v }
  else st

/-- The `for (let i = 0; i < fields.length; i += 2)` scan over the flat
key/value array; the last occurrence of a key wins. -/
def scanFields : List String → ScanState → ScanState
  | [], st => st
  | [k], st => assignField st k none
  | k :: v :: rest, st => scanFields rest (assignField st k (some v))

/-- JavaScript falsiness of an optional string (`!scope`): `undefined`
and the empty string are falsy. -/
def jsFalsyStr : Option String → Bool
  | none => true
  | some s => s == ""

/-- The event produced by the parser: the raw `scope` string, `delta`
and `timestamp` converted with `Number(...)` semantics, and the raw
metadata blob when present and decodable. -/
structure ParsedEvent where
  scope : String
  delta : JsNum
  timestamp : JsNum
  metadata : Option String
deriving DecidableEq, Repr

/-- `CounterBridge.parseEvent`, returning the produced event (or `none`
for a dropped entry) together with the warnings emitted. `jsonOk`
abstracts whether `JSON.parse` succeeds on a metadata blob, and `now`
is `Date.now()`. The guard is `!scope || delta === undefined`; the
timestamp is `Number(timestamp ?? Date.now())`, so an absent timestamp
becomes `now` while a present one goes through `Number(...)`. -/
def parseEvent (jsonOk : String → Bool) (now : Int) (fields : List String) :
    Option ParsedEvent × List Emitted :=
  let st := scanFields fields initScan
  if jsFalsyStr st.scopeF || st.deltaF.isNone then
    (none, [.warnMalformed fields])
  else
    let sc := st.scopeF.getD ""
    let de := st.deltaF.getD ""
    let (md, warns) : Option String × List Emitted :=
      match st.metaF with
      | some m =>
        if m ≠ "" then
          (if jsonOk m then (some m, []) else (none, [.warnMetadata sc]))
        else (none, [])
      | none => (none, [])
    let ts : JsNum :=
      match st.tsF with
      | some t => jsNumber t
      | none => .num (now : ℚ)
    (some ⟨sc, jsNumber de, ts, md⟩, warns)

/-- **C5 (counterexample).** A delta field that does not parse as a
finite number (`Number("abc")` is NaN) is not dropped: the parser still
produces an event (with NaN delta) and emits no malformed-event
warning, contradicting the claim that such entries are dropped with a
warning. -/
theorem parse_unparseable_delta_kept :
    jsNumber "abc" = JsNum.nan ∧
    (parseEvent (fun _ => true) 0 ["scope", "x", "delta", "abc"]).1 =
      some ⟨"x", JsNum.nan, JsNum.num 0, none⟩ ∧
    (parseEvent (fun _ => true) 0 ["scope", "x", "delta", "abc"]).2 = [] := by
  decide

/-- **C5 (amended).** The parser produces an event iff the scanned
fields contain a non-empty `scope` and a present `delta` slot; the
delta string is converted with JavaScript `Number` semantics (an
unparseable delta yields an event with NaN delta instead of being
dropped); exactly the inputs with an absent or empty `scope` or an
absent `delta` are dropped with the malformed-event warning carrying
the raw fields. -/
theorem parse_requires_scope_delta (jsonOk : String → Bool) (now : Int)
    (fields : List String) :
    ((parseEvent jsonOk now fields).1 = none ↔
      ((scanFields fields initScan).scopeF = none ∨
       (scanFields fields initScan).scopeF = some "" ∨
       (scanFields fields initScan).deltaF = none)) ∧
    ((parseEvent jsonOk now fields).1 = none →
      (parseEvent jsonOk now fields).2 = [.warnMalformed fields]) ∧
    (∀ ev, (parseEvent jsonOk now fields).1 = some ev →
      (scanFields fields initScan).scopeF = some ev.scope ∧
      ev.scope ≠ "" ∧
      (∃ d, (scanFields fields initScan).deltaF = some d ∧
        ev.delta = jsNumber d) ∧
      Emitted.warnMalformed fields ∉ (parseEvent jsonOk now fields).2) := by
  rcases hsc : (scanFields fields initScan).scopeF with _ | sc
  · have hres : parseEvent jsonOk now fields =
        (none, [.warnMalformed fields]) := by
      simp [parseEvent, hsc, jsFalsyStr]
    refine ⟨?_, ?_, ?_⟩
    · simp [hres]
    · simp [hres]
    · intro ev hev
      rw [hres] at hev
      cases hev
  · by_cases hemp : sc = ""
    · subst hemp
      have hres : parseEvent jsonOk now fields =
          (none, [.warnMalformed fields]) := by
        simp [parseEvent, hsc, jsFalsyStr]
      refine ⟨?_, ?_, ?_⟩
      · simp [hres, hsc]
      · simp [hres]
      · intro ev hev
        rw [hres] at hev
        cases hev
    · rcases hde : (scanFields fields initScan).deltaF with _ | d
      · have hres : parseEvent jsonOk now fields =
            (none, [.warnMalformed fields]) := by
          simp [parseEvent, hsc, hde, jsFalsyStr]
        refine ⟨?_, ?_, ?_⟩
        · simp [hres, hsc, hemp]
        · simp [hres]
        · intro ev hev
          rw [hres] at hev
          cases hev
      · have hfst : (parseEvent jsonOk now fields).1 =
            some ⟨sc, jsNumber d,
              (match (scanFields fields initScan).tsF with
               | some t => jsNumber t
               | none => .num (now : ℚ)),
              (match (scanFields fields initScan).metaF with
               | some m =>
                 if m ≠ "" then (if jsonOk m then some m else none)
                 else none
               | none => none)⟩ := by
          simp [parseEvent, hsc, hde, jsFalsyStr, hemp]
          rcases (scanFields fields initScan).metaF with _ | m
          · rfl
          · by_cases hm : m = "" <;> by_cases hj : jsonOk m <;>
              simp [hm, hj]
        have hsnd : Emitted.warnMalformed fields ∉
            (parseEvent jsonOk now fields).2 := by
          simp only [parseEvent, hsc, hde, jsFalsyStr, hemp]
          rcases (scanFields fields initScan).metaF with _ | m
          · simp [hemp]
          · by_cases hm : m = "" <;> by_cases hj : jsonOk m <;>
              simp [hm, hj, hemp]
        refine ⟨?_, ?_, ?_⟩
        · rw [hfst]
          simp [hsc, hemp, hde]
        · intro hnone
          rw [hfst] at hnone
          cases hnone
        · intro ev hev
          rw [hfst] at hev
          have hEv := Option.some.inj hev
          subst hEv
          refine ⟨?_, ?_, ?_, hsnd⟩
          · simp [hsc]
          · exact hemp
          · exact ⟨d, rfl, rfl⟩

/-- Concrete instance of `parse_requires_scope_delta`: an entry with no
`scope` field is dropped with the malformed-event warning. -/
theorem parse_requires_scope_delta_witness :
    (parseEvent (fun _ => true) 3 ["delta", "7"]).1 = none ∧
    (parseEvent (fun _ => true) 3 ["delta", "7"]).2 =
      [Emitted.warnMalformed ["delta", "7"]] := by
  have h := parse_requires_scope_delta (fun _ => true) 3 ["delta", "7"]
  have hnone : (parseEvent (fun _ => true) 3 ["delta", "7"]).1 = none :=
    h.1.mpr (by decide)
  exact ⟨hnone, h.2.1 hnone⟩

/-- **C6 (counterexample).** A present but unparseable timestamp does
not default to the wall clock: with `Date.now() = 1234`, the field
`timestamp = "abc"` yields an event whose timestamp is NaN, not 1234. -/
theorem parse_timestamp_nan :
    ((parseEvent (fun _ => true) 1234
        ["scope", "x", "delta", "1", "timestamp", "abc"]).1.map
      ParsedEvent.timestamp) = some JsNum.nan ∧
    JsNum.nan ≠ JsNum.num (1234 : ℚ) := by
  decide

/-- **C6 (amended).** The produced event's timestamp defaults to the
current wall clock only when the timestamp field is absent; when the
field is present its string is converted with JavaScript `Number`
semantics (so an unparseable timestamp yields NaN, and an empty string
yields 0, not the wall clock). -/
theorem parse_timestamp_rule (jsonOk : String → Bool) (now : Int)
    (fields : List String) (ev : ParsedEvent)
    (h : (parseEvent jsonOk now fields).1 = some ev) :
    ev.timestamp = (match (scanFields fields initScan).tsF with
      | some t => jsNumber t
      | none => JsNum.num (now : ℚ)) := by
  rcases hsc : (scanFields fields initScan).scopeF with _ | sc
  · exfalso
    have hres : (parseEvent jsonOk now fields).1 = none := by
      simp [parseEvent, hsc, jsFalsyStr]
    rw [hres] at h
    cases h
  · by_cases hemp : sc = ""
    · exfalso
      subst hemp
      have hres : (parseEvent jsonOk now fields).1 = none := by
        simp [parseEvent, hsc, jsFalsyStr]
      rw [hres] at h
      cases h
    · rcases hde : (scanFields fields initScan).deltaF with _ | d
      · exfalso
        have hres : (parseEvent jsonOk now fields).1 = none := by
          simp [parseEvent, hsc, hde, jsFalsyStr]
        rw [hres] at h
        cases h
      · have hfst : (parseEvent jsonOk now fields).1 =
            some ⟨sc, jsNumber d,
              (match (scanFields fields initScan).tsF with
               | some t => jsNumber t
               | none => .num (now : ℚ)),
              (match (scanFields fields initScan).metaF with
               | some m =>
                 if m ≠ "" then (if jsonOk m then some m else none)
                 else none
               | none => none)⟩ := by
          simp [parseEvent, hsc, hde, jsFalsyStr, hemp]
          rcases (scanFields fields initScan).metaF with _ | m
          · rfl
          · by_cases hm : m = "" <;> by_cases hj : jsonOk m <;>
              simp [hm, hj]
        rw [hfst] at h
        have hEv := Option.some.inj h
        subst hEv
        rfl

/-- Concrete instance of `parse_timestamp_rule`: with an absent
timestamp field and `Date.now() = 5`, the event's timestamp is 5. -/
theorem parse_timestamp_rule_witness :
    (parseEvent (fun _ => true) 5 ["scope", "x", "delta", "1"]).1 =
      some ⟨"x", JsNum.num 1, JsNum.num (5 : ℚ), none⟩ ∧
    ParsedEvent.timestamp ⟨"x", JsNum.num 1, JsNum.num (5 : ℚ), none⟩ =
      JsNum.num ((5 : Int) : ℚ) := by
  constructor
  · decide
  · exact (parse_timestamp_rule (fun _ => true) 5
      ["scope", "x", "delta", "1"]
      ⟨"x", JsNum.num 1, JsNum.num (5 : ℚ), none⟩ (by decide)).trans
      (by decide)

/-!
## Start sequence and error policy (`CounterBridge.start`, read loop)

`start()` awaits `provider.initialize()` (when present), then `XGROUP
CREATE` (swallowing only the BUSYGROUP error), then sets
`this.running = true`, emits `started`, awaits `recoverPending()`
(whose body catches every error, counts it and emits an `error`
event), and finally spawns the read loop and arms the flush timer.
The outcome of each awaited call is passed in as a parameter.
-/

/-- Outcome of an awaited call that either resolves or rejects. -/
inductive StepResult where
  | ok
  | err
deriving DecidableEq, Repr

/-- Outcome of the `XGROUP CREATE` call: success, rejection with a
BUSYGROUP ("consumer group already exists") error, or rejection with
any other error. -/
inductive XgroupResult where
  | ok
  | busygroup
  | err
deriving DecidableEq, Repr

/-- The externally observable operations of the start sequence, in the
order they are performed. -/
inductive StartOp where
  | initProvider
  | ensureGroup
  | markRunning
  | emitStarted
  | recoveryPhase
  | spawnReadLoop
  | armTimer
deriving DecidableEq, Repr

/-- `CounterBridge.start` on a fresh instance: returns the ordered
trace of performed operations together with the number of errors
caught (and emitted as `error` events) by the recovery phase, or
`Except.error` when start rejects. A provider-initialize rejection and
a non-BUSYGROUP `XGROUP CREATE` rejection propagate; a BUSYGROUP
rejection is swallowed; a recovery-phase rejection is caught inside
`recoverPending` and never fails start. -/
def startModel (initRes : StepResult) (xgRes : XgroupResult)
    (recRes : StepResult) : Except Unit (List StartOp × Nat) :=
  match initRes with
  | .err => .error ()
  | .ok =>
    match xgRes with
    | .err => .error ()
    | _ =>
      let recErrors : Nat := match recRes with | .ok => 0 | .err => 1
      .ok ([.initProvider, .ensureGroup, .markRunning, .emitStarted,
            .recoveryPhase, .spawnReadLoop, .armTimer], recErrors)

/-- The `catch` branch of the read loop (`readLoop`): a rejected
`xreadgroup` increments the error counter and emits an `error` event;
the loop then backs off and continues — it never rethrows, so the
state transformation is total. -/
def readLoopCatch (st : BridgeState) : BridgeState :=
  { st with
    stats := { st.stats with errorCount := st.stats.errorCount + 1 },
    emitted := st.emitted ++ [.errorEv] }

/-- **C7 (counterexample).** A provider-initialize failure alone (group
creation would succeed) makes `start` reject: group creation is not
the only error that can fail start. -/
theorem start_fails_on_init_error :
    startModel .err .ok .ok = .error () ∧
    (startModel .ok .ok .ok).isOk = true :=
  ⟨rfl, rfl⟩

/-- **C7 (amended).** Runtime errors never terminate the consumer: the
read loop's catch branch turns a read failure into an error count and
an `error` event, and a recovery-phase failure is caught inside start
(start still succeeds, the error is counted). During start, start
fails exactly when provider initialize rejects or group creation
rejects with a non-BUSYGROUP error; the BUSYGROUP error is swallowed
and start succeeds. -/
theorem start_error_policy (i : StepResult) (x : XgroupResult)
    (r : StepResult) (st : BridgeState) :
    ((startModel i x r).isOk = true ↔
      (i = .ok ∧ x ≠ .err)) ∧
    (startModel .ok .busygroup r).isOk = true ∧
    (startModel .ok x .err = (startModel .ok x .ok).map
      (fun p => (p.1, p.2 + 1))) ∧
    (readLoopCatch st).stats.errorCount = st.stats.errorCount + 1 ∧
    (readLoopCatch st).emitted = st.emitted ++ [.errorEv] := by
  refine ⟨?_, ?_, ?_, ?_, ?_⟩
  · cases i <;> cases x <;> cases r <;>
      simp [startModel, Except.isOk, Except.toBool]
  · cases r <;> simp [startModel, Except.isOk, Except.toBool]
  · cases x <;> simp [startModel, Except.map]
  · simp [readLoopCatch]
  · simp [readLoopCatch]

/-- Concrete instance of `start_error_policy`: with everything healthy,
start succeeds. -/
theorem start_error_policy_witness :
    (startModel .ok .ok .ok).isOk = true := by
  have h := start_error_policy .ok .ok .ok
    ⟨emptyAggregator, [], initStats, [], []⟩
  exact h.1.mpr ⟨rfl, by decide⟩

/-- **C8 (counterexample).** The actual start trace marks the consumer
running and emits `started` before the recovery phase, not after it:
the trace differs from the claimed order (initialize, ensure group,
recovery, mark running, emit started, spawn read loop, arm timer). -/
theorem start_trace_ce :
    startModel .ok .ok .ok =
      .ok ([.initProvider, .ensureGroup, .markRunning, .emitStarted,
            .recoveryPhase, .spawnReadLoop, .armTimer], 0) ∧
    ([StartOp.initProvider, .ensureGroup, .markRunning, .emitStarted,
      .recoveryPhase, .spawnReadLoop, .armTimer] ≠
     [StartOp.initProvider, .ensureGroup, .recoveryPhase, .markRunning,
      .emitStarted, .spawnReadLoop, .armTimer]) :=
  ⟨rfl, by decide⟩

/-- **C8 (amended).** Whenever start succeeds, its operations run in
the order: provider initialize, ensure consumer group, mark running,
emit `started`, recovery phase, spawn read loop, arm flush timer — the
consumer is marked running and `started` is emitted before the
recovery phase completes. -/
theorem start_trace_order (x : XgroupResult) (r : StepResult)
    (hx : x ≠ .err) :
    ∃ n, startModel .ok x r =
      .ok ([.initProvider, .ensureGroup, .markRunning, .emitStarted,
            .recoveryPhase, .spawnReadLoop, .armTimer], n) := by
  cases x <;> cases r <;> simp [startModel] at hx ⊢

/-- Concrete instance of `start_trace_order` at a healthy start. -/
theorem start_trace_order_witness :
    ∃ n, startModel .ok .ok .ok =
      .ok ([.initProvider, .ensureGroup, .markRunning, .emitStarted,
            .recoveryPhase, .spawnReadLoop, .armTimer], n) :=
  start_trace_order .ok .ok (by decide)

/-!
## MongoDB provider (`MongoProvider.flush`)

`flush(batch)` returns immediately on an empty batch; otherwise it
builds one `updateOne` upsert with `$inc` per scope and issues a
single unordered `bulkWrite`, turning a `MongoBulkWriteError` whose
write errors cover a strict subset of the operations into a
`FlushResult` with the failed scopes, and rethrowing anything else.
-/

/-- One `updateOne` operation of the bulk write: filter on the scope,
`$inc` the value by the delta, `upsert: true`. -/
structure MongoOp where
  scope : String
  incValue : Int
deriving DecidableEq, Repr

/-- Outcome of the awaited `bulkWrite` call: success, a
`MongoBulkWriteError` carrying the indexes of the failed operations,
or any other rejection. -/
inductive BulkWriteResult where
  | ok
  | bulkError (writeErrorIdxs : List Nat)
  | otherError
deriving DecidableEq, Repr

/-- `MongoProvider.flush`, with the `bulkWrite` outcome passed in as
`bw`. The second component of the result records the argument of every
`bulkWrite` call made (empty means `bulkWrite` was never invoked).
`Except.ok none` is a void (full-success) return; `Except.ok (some l)`
is a `FlushResult` with failed scope/delta pairs `l`; `Except.error ()`
is a rethrown error. -/
def mongoFlush (batch : List (String × Int)) (bw : BulkWriteResult) :
    Except Unit (Option (List (String × Int))) × List (List MongoOp) :=
  if batch.length = 0 then (.ok none, [])
  else
    let scopes := batch.map Prod.fst
    let ops := batch.map (fun p => MongoOp.mk p.1 p.2)
    let calls := [ops]
    match bw with
    | .ok => (.ok none, calls)
    | .bulkError idxs =>
      if 0 < idxs.length ∧ idxs.length < ops.length then
        let failed := idxs.dedup.filterMap (fun i =>
          (scopes.get? i).map (fun s => (s, (getKey batch s).getD 0)))
        (.ok (some failed), calls)
      else (.error (), calls)
    | .otherError => (.error (), calls)

/-- **C10.** `MongoProvider.flush` on an empty batch returns success
immediately and never invokes `bulkWrite`, whatever the database would
have done. -/
theorem mongoFlush_empty (bw : BulkWriteResult) :
    mongoFlush [] bw = (.ok none, []) := by
  rfl
